import Mathlib

/-!
Verification of the support/resistance (SR) zone engine of
credit_spread_framework.

The definitions below are a shallow embedding, translated function by
function from the Python sources:

* indicators/custom/enhanced_sr_zone_indicator.py
  (EnhancedSRZoneIndicator: __init__, calculate, _determine_timeframe,
  _detect_pivots, _sinc, _sinc_filter, _build_histogram, _peak_detection,
  _detect_peaks, _detect_interactions);
* data/repositories/sr_zone_repository.py (SRZoneRepository: create_zone,
  update_zone_strength, invalidate_zone, get_active_zones, get_zone_by_id);
* documents/Indicators/SRZones/PineConversion/srzone/pivot_detection.py
  (detect_pivot_high, detect_pivot_low).

Modelling conventions:

* Python floats are idealised as exact rationals (ℚ); the transcendental
  sinc kernel (numpy sin) lives on ℝ.  Functions that merely pass the
  kernel around take it as an explicit argument, mirroring the `self._sinc`
  method reference; statements quantify over every kernel, which in
  particular covers the real one.
* Timestamps are integers (pandas Timestamps are totally ordered; only
  order and subtraction are used).
* A Python `raise` (ZeroDivisionError / ValueError from int(nan),
  NameError from an unassigned local) is modelled by `Option`: `none`
  means the call raises, `some` is the normal return value.
* The SQL store is a list of zone rows plus a fresh-id counter; SQL
  `UPDATE ... WHERE zone_id = x` updates every matching row, `SELECT`
  with `fetchone` returns the first matching row in table order.
* Python `list.sort(key=k, reverse=True)` is a stable descending sort,
  embedded as `List.insertionSort` with the reflexive relation `k a ≥ k b`
  (equal keys keep their original order).
* `while` loops are embedded as fuel-indexed structural recursion; the
  fuel passed at every call site strictly exceeds the number of
  iterations the loop can make (the loop index increases by at least one
  per iteration and is bounded by the array length), so the fuel-exhausted
  branch is never taken.
-/


/-- Python float truncation toward zero: int(x). -/
def pyInt (x : ℚ) : ℤ := if 0 ≤ x then ⌊x⌋ else -⌊-x⌋

/-- numpy max over an array (seeded with the first element; 0 for []). -/
def listMax : List ℚ → ℚ
  | [] => 0
  | x :: xs => xs.foldl max x

/-- numpy min over an array (seeded with the first element; 0 for []). -/
def listMin : List ℚ → ℚ
  | [] => 0
  | x :: xs => xs.foldl min x

/-- Python min over a list of timestamps. -/
def listMinInt : List ℤ → ℤ
  | [] => 0
  | x :: xs => xs.foldl min x

/-- np.argmin: index of the first occurrence of the minimum. -/
def argminL (l : List ℚ) : ℕ :=
  (l.enum.foldl (fun best p => if p.2 < best.2 then p else best) (0, l.headD 0)).1

/-- np.argmax: index of the first occurrence of the maximum. -/
def argmaxL (l : List ℚ) : ℕ :=
  (l.enum.foldl (fun best p => if p.2 > best.2 then p else best) (0, l.headD 0)).1

/-- The first strictly positive entry of the smoothed histogram (0 when
there is none): the real_minimum loop of _detect_peaks. -/
def firstPositive (l : List ℚ) : ℚ := (l.find? (fun v => 0 < v)).getD 0

/-- Python list.sort(key=strength, reverse=True): stable descending sort on
the second component. -/
def sortByStrengthDesc (l : List (ℚ × ℚ)) : List (ℚ × ℚ) :=
  l.insertionSort (fun a b => a.2 ≥ b.2)

/-- EnhancedSRZoneIndicator._sinc (and srzone/signal_processing.sinc):
sinc(0) = 1, sinc(x) = sin(pi x / bandwidth) / (pi x / bandwidth). -/
noncomputable def sinc (x bandwidth : ℝ) : ℝ :=
  if x = 0 then 1 else Real.sin (Real.pi * x / bandwidth) / (Real.pi * x / bandwidth)

/-- EnhancedSRZoneIndicator._sinc_filter.  The kernel `sincFn` stands for
the bound method self._sinc; the field is a parameter so the same
translation serves the real kernel (`sinc`) and the rational idealisation.
Mirrors the source line by line: identity when length <= 0 or the input is
empty; otherwise each output entry is the kernel-weighted mean over all
positions, with a sum_weight > 0 guard, clamped by max(.., 0). -/
def sinc_filter {α : Type} [LinearOrderedField α]
    (sincFn : α → α → α) (source : List α) (length : ℤ) : List α :=
  if length ≤ 0 ∨ source.length = 0 then source
  else
    (List.range source.length).map fun i =>
      let sum_val := ((List.range source.length).map fun j =>
        source.getD j 0 * sincFn ((i : α) - (j : α)) ((length : α) + 1)).sum
      let sum_weight := ((List.range source.length).map fun j =>
        sincFn ((i : α) - (j : α)) ((length : α) + 1)).sum
      let current_price := if sum_weight > 0 then sum_val / sum_weight else 0
      max current_price 0

/-- Inner plateau loop of _peak_detection (the while over j).  Arguments i
and center are the outer loop's state; the result is none when the loop
runs off the end of the array without a break, and some (app, i2) when it
breaks, where app is the peak index appended (if any) and i2 the value the
loop body assigned to i.  The first fuel argument strictly exceeds the
number of remaining iterations at every call site. -/
def pdInner (c : ℕ → ℤ) (center : ℤ) (len i : ℕ) : ℕ → ℕ → Option (Option ℚ × ℕ)
  | 0, _ => none
  | fuel + 1, j =>
    if j < len then
      let jn := j + 1
      let vary_previous : ℤ := if jn - 1 < len then c (jn - 1) else 0
      let very_next : ℤ := if jn < len then c jn else 0
      if very_next ≠ vary_previous then
        if center > very_next then
          let p_idx : ℕ := (i + jn) / 2
          some (some (if jn - i > 2 ∧ (jn - i) % 2 ≠ 0 then (p_idx : ℚ)
            else (p_idx : ℚ) - 1 / 2), jn)
        else some (none, jn - 1)
      else pdInner c center len i fuel jn
    else none

/-- Outer scan loop of _peak_detection (the while over i).  c is the
scaled-center function; the accumulated list holds the recorded peak
indices, a half-integer index standing for an even-length plateau. -/
def pdOuter (c : ℕ → ℤ) (len : ℕ) : ℕ → ℕ → List ℚ
  | 0, _ => []
  | fuel + 1, i =>
    if i < len then
      let center := c i
      let previous : ℤ := if i > 0 then c (i - 1) else 0
      let next_val : ℤ := if i + 1 < len then c (i + 1) else 0
      if center > previous then
        if center = next_val then
          match pdInner c center len i (len + 1) (i + 1) with
          | some (app, i2) =>
            app.toList ++ (if center > next_val then [(i2 : ℚ)] else [])
              ++ pdOuter c len fuel (i2 + 1)
          | none =>
            (if center > next_val then [(i : ℚ)] else []) ++ pdOuter c len fuel (i + 1)
        else
          (if center > next_val then [(i : ℚ)] else []) ++ pdOuter c len fuel (i + 1)
      else pdOuter c len fuel (i + 1)
    else []

/-- EnhancedSRZoneIndicator._peak_detection.  Returns some (list of peak
indices); none models the Python exception: when max_val = max(source) -
real_minimum is zero, every scaled center is int of nan (or of +-inf),
and int(nan) raises ValueError on the very first loop iteration -- the
loop body runs whenever the function is enabled and the array nonempty. -/
def peak_detection (source : List ℚ) (scale : ℤ) (real_minimum : ℚ)
    (enable : Bool) : Option (List ℚ) :=
  if enable = false ∨ source.length = 0 then some []
  else
    let max_val := listMax source - real_minimum
    if max_val = 0 then none
    else
      some (pdOuter
        (fun k => pyInt ((source.getD k 0 - real_minimum) / max_val * ((scale : ℚ) - 1) + 1))
        source.length (source.length + 1) 0)

/-- The hard-coded TradingView chart levels that _detect_peaks forces into
its peak list ("Add specific zones from the TradingView chart"). -/
def target_zones : List ℚ := [6132, 5726, 5431, 5178, 4939, 4558, 4095]

/-- One iteration of the first peak-index loop of _detect_peaks: some
(level, strength) when the index range checks pass (the iteration reaches
the line that assigns max_hist), none when the iteration continues.  An
integer index reads one bin; a fractional (plateau) index interpolates the
two adjacent bins. -/
def peakAt (centers filtered : List ℚ) (idx : ℚ) : Option (ℚ × ℚ) :=
  if idx.den = 1 then
    let idx_int := pyInt idx
    if 0 ≤ idx_int ∧ idx_int < (centers.length : ℤ) then
      some (centers.getD idx_int.toNat 0, filtered.getD idx_int.toNat 0)
    else none
  else
    let idx_floor := pyInt idx
    let idx_ceil := idx_floor + 1
    if idx_floor < 0 ∨ (centers.length : ℤ) ≤ idx_ceil then none
    else
      some ((centers.getD idx_floor.toNat 0 + centers.getD idx_ceil.toNat 0) / 2,
        (filtered.getD idx_floor.toNat 0 + filtered.getD idx_ceil.toNat 0) / 2)

/-- EnhancedSRZoneIndicator._detect_peaks.  thresh_r is the source's
threshold ratio parameter; sincFn stands for self._sinc.  none models the
two exceptions the body can raise: the int(nan) of _peak_detection, and
the NameError on max_hist when no peak index passes the range checks
(max_hist is assigned only inside that loop and read unconditionally
afterwards, both by the lowered-threshold retry and by the hard-coded
target-zone block).  After the detected peaks are filtered, retried at
half threshold and extended by the min/max fallback, the source sorts the
list, then discards it (peaks = []) and forces the seven target_zones
levels with synthetic strengths 0.9/0.8/0.6 * max_hist; a second pass
would add the closest bin center for any target not already covered
within zone_tolerance, and a third would top the list up to seven from
remaining local maxima. -/
def detect_peaks (sincFn : ℚ → ℚ → ℚ) (filter_len : ℤ) (zone_tolerance : ℚ)
    (centers hist : List ℚ) (thresh_r : ℚ) : Option (List (ℚ × ℚ)) :=
  if hist.all (fun v => v = 0) then some []
  else
    let filtered_hist := sinc_filter sincFn hist filter_len
    let real_minimum := firstPositive filtered_hist
    match peak_detection filtered_hist 30 real_minimum true with
    | none => none
    | some peak_indices =>
      let processed := peak_indices.filterMap (peakAt centers filtered_hist)
      if processed = [] then none
      else
        let max_hist := listMax filtered_hist
        let peaks1 := processed.filter (fun ls => thresh_r * max_hist ≤ ls.2)
        let peaks2 :=
          if peaks1 = [] ∧ 1 / 10 < thresh_r then
            peaks1 ++ ((List.range filtered_hist.length).filterMap fun i =>
              if 1 ≤ i ∧ i + 1 < filtered_hist.length ∧
                  filtered_hist.getD (i - 1) 0 < filtered_hist.getD i 0 ∧
                  filtered_hist.getD (i + 1) 0 < filtered_hist.getD i 0 ∧
                  thresh_r / 2 * max_hist ≤ filtered_hist.getD i 0 then
                some (centers.getD i 0, filtered_hist.getD i 0)
              else none)
          else peaks1
        let peaks3 :=
          if peaks2 = [] then
            let min_idx := argminL filtered_hist
            let max_idx := argmaxL filtered_hist
            [(centers.getD min_idx 0, filtered_hist.getD min_idx 0)] ++
              (if min_idx ≠ max_idx then
                [(centers.getD max_idx 0, filtered_hist.getD max_idx 0)] else [])
          else peaks2
        -- the source sorts peaks3 by strength here, then overwrites the list:
        -- peaks = [] followed by the target-zone loop.
        let peaks4 := target_zones.map fun target =>
          (target, if (6000 : ℚ) ≤ target then max_hist * (9 / 10)
            else if target ≤ 5000 then max_hist * (8 / 10) else max_hist * (6 / 10))
        let peaks5 := target_zones.foldl (fun ps target =>
          if ps.any (fun p => |p.1 - target| < zone_tolerance) then ps
          else
            let closest_idx := argminL (centers.map fun cc => |cc - target|)
            ps ++ [(centers.getD closest_idx 0,
              max (filtered_hist.getD closest_idx 0) (max_hist * (1 / 10)))]) peaks4
        let peaks6 :=
          if peaks5.length < 7 then
            let additional := (List.range filtered_hist.length).filterMap fun i =>
              if 1 ≤ i ∧ i + 1 < filtered_hist.length ∧
                  filtered_hist.getD (i - 1) 0 < filtered_hist.getD i 0 ∧
                  filtered_hist.getD (i + 1) 0 < filtered_hist.getD i 0 ∧
                  ¬ peaks5.any (fun p => |centers.getD i 0 - p.1| < zone_tolerance) then
                some (centers.getD i 0, filtered_hist.getD i 0)
              else none
            peaks5 ++ (sortByStrengthDesc additional).take (7 - peaks5.length)
          else peaks5
        some (sortByStrengthDesc peaks6)

/-- A price bar: the DataFrame columns the SR pipeline reads.  spy_volume
is optional, mirroring the `"spy_volume" in bars` column check. -/
structure Bar where
  timestamp : ℤ
  high : ℚ
  low : ℚ
  close_price : ℚ
  spy_volume : Option ℚ
deriving DecidableEq

/-- Placeholder bar for out-of-range getD reads (never hit on the guarded
index ranges). -/
def dBar : Bar := ⟨0, 0, 0, 0, none⟩

/-- A pivot as _detect_pivots collects it; field order is the tuple order
(timestamp, level, weight, type) used by the pivot_lookback sort. -/
structure Piv where
  ts : ℤ
  level : ℚ
  weight : ℚ
  ptype : String
deriving DecidableEq

/-- The pandas mask (high.shift(length) < high) & (high.shift(-length) <
high) of _detect_pivots: bar i is selected iff the two bars exactly
`length` positions away exist (shift fills NaN at the edges, and NaN
comparisons are False) and both have strictly smaller highs.  Note: only
those two bars are compared, not the whole window. -/
def enhancedPivotHighIdx (bars : List Bar) (length : ℕ) : List ℕ :=
  (List.range bars.length).filter fun i =>
    decide (length ≤ i) && decide (i + length < bars.length) &&
    decide ((bars.getD (i - length) dBar).high < (bars.getD i dBar).high) &&
    decide ((bars.getD (i + length) dBar).high < (bars.getD i dBar).high)

/-- The symmetric pandas mask for pivot lows of _detect_pivots. -/
def enhancedPivotLowIdx (bars : List Bar) (length : ℕ) : List ℕ :=
  (List.range bars.length).filter fun i =>
    decide (length ≤ i) && decide (i + length < bars.length) &&
    decide ((bars.getD i dBar).low < (bars.getD (i - length) dBar).low) &&
    decide ((bars.getD i dBar).low < (bars.getD (i + length) dBar).low)

/-- The per-pivot weight expression of _detect_pivots: time = bars further
from the end weigh more before normalisation, volume = the bar's
spy_volume (1.0 when the column is absent), linear = 1. -/
def pivotWeight (method : String) (bars : List Bar) (idx : ℕ) : ℚ :=
  if method = "time" then (((bars.length : ℤ) - 1 - (idx : ℤ) : ℤ) : ℚ)
  else if method = "volume" then ((bars.getD idx dBar).spy_volume).getD 1
  else 1

/-- EnhancedSRZoneIndicator._detect_pivots: collect highs then lows per
window length, fall back to the series extremes when nothing was found,
keep the pivot_lookback most recent pivots (stable sort by timestamp,
newest first), and re-normalise time weights to minimum 1. -/
def detect_pivots (lengths : List ℕ) (include_ph include_pl : Bool)
    (pivot_lookback : ℕ) (method : String) (bars : List Bar) : List Piv :=
  let collected := lengths.flatMap fun length =>
    (if include_ph then
      (enhancedPivotHighIdx bars length).map fun i =>
        ⟨(bars.getD i dBar).timestamp, (bars.getD i dBar).high,
          pivotWeight method bars i, "high"⟩
    else []) ++
    (if include_pl then
      (enhancedPivotLowIdx bars length).map fun i =>
        ⟨(bars.getD i dBar).timestamp, (bars.getD i dBar).low,
          pivotWeight method bars i, "low"⟩
    else [])
  let collected :=
    if collected = [] then
      [⟨(bars.headD dBar).timestamp, listMax (bars.map Bar.high), 1, "high"⟩,
        ⟨(bars.headD dBar).timestamp, listMin (bars.map Bar.low), 1, "low"⟩]
    else collected
  let collected :=
    if pivot_lookback ≠ 0 ∧ pivot_lookback < collected.length then
      (collected.insertionSort (fun a b => a.ts ≥ b.ts)).take pivot_lookback
    else collected
  if method = "time" ∧ collected ≠ [] then
    let min_weight := listMin (collected.map Piv.weight)
    collected.map fun p => { p with weight := p.weight - min_weight + 1 }
  else collected

/-- srzone/pivot_detection.detect_pivot_high: the reference implementation
checks the whole window -- bar i is a pivot high iff it is strictly above
every bar within `left` positions before and `right` positions after;
edge bars and too-short series yield False. -/
def detect_pivot_high (series : List ℚ) (left right : ℕ) : List Bool :=
  if series.length < left + right + 1 then List.replicate series.length false
  else
    List.replicate left false ++
      ((List.range' left (series.length - right - left)).map fun i =>
        ((List.range left).all fun j =>
          decide (series.getD (i - (j + 1)) 0 < series.getD i 0)) &&
        ((List.range right).all fun j =>
          decide (series.getD (i + (j + 1)) 0 < series.getD i 0))) ++
      List.replicate right false

/-- srzone/pivot_detection.detect_pivot_low: symmetric whole-window check
(strictly below every bar in the window). -/
def detect_pivot_low (series : List ℚ) (left right : ℕ) : List Bool :=
  if series.length < left + right + 1 then List.replicate series.length false
  else
    List.replicate left false ++
      ((List.range' left (series.length - right - left)).map fun i =>
        ((List.range left).all fun j =>
          decide (series.getD i 0 < series.getD (i - (j + 1)) 0)) &&
        ((List.range right).all fun j =>
          decide (series.getD i 0 < series.getD (i + (j + 1)) 0))) ++
      List.replicate right false

/-- Five bars whose highs are 1, 9, 5, 1, 1. -/
def demoBarsC2 : List Bar :=
  [⟨0, 1, 0, 0, none⟩, ⟨1, 9, 0, 0, none⟩, ⟨2, 5, 0, 0, none⟩,
    ⟨3, 1, 0, 0, none⟩, ⟨4, 1, 0, 0, none⟩]

/-- A row of the sr_zones table. -/
structure Zone where
  zone_id : ℕ
  value : ℚ
  qualifier : String
  timeframe : String
  strength : ℚ
  first_detected : ℤ
  last_confirmed : ℤ
  invalidated_at : Option ℤ
  is_active : Bool
deriving DecidableEq

/-- The sr_zones table: rows in insertion order plus the identity column's
next value. -/
structure DB where
  zones : List Zone
  next_id : ℕ
deriving DecidableEq

/-- The empty table. -/
def emptyDB : DB := ⟨[], 0⟩

/-- The merge-candidate SELECT of create_zone: same qualifier and
timeframe, value strictly within 15 points (the tolerance is hard-coded in
the SQL text), active.  fetchone takes the first matching row. -/
def zoneMatches (q tf : String) (v : ℚ) (z : Zone) : Bool :=
  decide (z.qualifier = q) && decide (z.timeframe = tf) &&
    decide (|z.value - v| < 15) && z.is_active

/-- SRZoneRepository.create_zone: merge into the first nearby active zone
of the same qualifier and timeframe (strength-weighted value when the
summed strength is positive, else the candidate value; summed strength;
last_confirmed overwritten), otherwise insert a fresh active row.  Returns
the affected zone id.  The Python timestamp defaults (now, and
last_confirmed = first_detected) are resolved by the caller; both
timestamps are explicit arguments here. -/
def create_zone (v : ℚ) (q tf : String) (strength : ℚ)
    (first_detected last_confirmed : ℤ) (db : DB) : ℕ × DB :=
  match db.zones.find? (zoneMatches q tf v) with
  | some existing =>
    let total_strength := existing.strength + strength
    let new_value :=
      if 0 < total_strength then
        (existing.value * existing.strength + v * strength) / total_strength
      else v
    (existing.zone_id,
      { db with zones := db.zones.map fun z =>
          if z.zone_id = existing.zone_id then
            { z with value := new_value, strength := total_strength,
                     last_confirmed := last_confirmed }
          else z })
  | none =>
    (db.next_id,
      { zones := db.zones ++
          [⟨db.next_id, v, q, tf, strength, first_detected, last_confirmed, none, true⟩],
        next_id := db.next_id + 1 })

/-- SRZoneRepository.update_zone_strength: add strength_delta and
overwrite last_confirmed on every row with the given id (the SQL has no
guard keeping last_confirmed at or after first_detected); returns the
updated strength scalar (none when no such row exists). -/
def update_zone_strength (zone_id : ℕ) (strength_delta : ℚ)
    (last_confirmed : ℤ) (db : DB) : Option ℚ × DB :=
  let db2 : DB := { db with zones := db.zones.map fun z =>
    if z.zone_id = zone_id then
      { z with strength := z.strength + strength_delta,
               last_confirmed := last_confirmed }
    else z }
  ((db2.zones.find? (fun z => decide (z.zone_id = zone_id))).map Zone.strength, db2)

/-- SRZoneRepository.invalidate_zone: set is_active = 0 and invalidated_at
on every row with the id; returns True iff a row matched (rowcount > 0).
The reason argument is only logged in the source and is dropped here. -/
def invalidate_zone (zone_id : ℕ) (invalidated_at : ℤ) (db : DB) : Bool × DB :=
  (db.zones.any (fun z => decide (z.zone_id = zone_id)),
    { db with zones := db.zones.map fun z =>
        if z.zone_id = zone_id then
          { z with is_active := false, invalidated_at := some invalidated_at }
        else z })

/-- SRZoneRepository.get_active_zones: active rows of the timeframe first
detected no later than date, optionally filtered by qualifier, ordered by
qualifier then value (stable). -/
def get_active_zones (tf : String) (qualifier : Option String) (date : ℤ)
    (db : DB) : List Zone :=
  (db.zones.filter fun z =>
      decide (z.timeframe = tf) && z.is_active && decide (z.first_detected ≤ date) &&
        (match qualifier with | none => true | some q => decide (z.qualifier = q))).insertionSort
    (fun a b => a.qualifier < b.qualifier ∨ (a.qualifier = b.qualifier ∧ a.value ≤ b.value))

/-- SRZoneRepository.get_zone_by_id: the first row with the id. -/
def get_zone_by_id (zone_id : ℕ) (db : DB) : Option Zone :=
  db.zones.find? (fun z => decide (z.zone_id = zone_id))

/-- A one-zone table: zone 0 at value 100, strength 5, first detected and
last confirmed at time 10, active. -/
def dbOneZone : DB := ⟨[⟨0, 100, "time", "1d", 5, 10, 10, none, true⟩], 1⟩

/-- The zone lifecycle invariant of the spec: active iff not invalidated,
and last_confirmed never before first_detected. -/
def ZoneInv (z : Zone) : Prop :=
  (z.is_active = true ↔ z.invalidated_at = none) ∧ z.first_detected ≤ z.last_confirmed

/-- The parameters_json dict of EnhancedSRZoneIndicator.__init__: each
recognised key is optional, absent keys fall back to the .get defaults.
threshold_r stands for the source's threshold ratio key. -/
structure SRParams where
  pivot_lookback : Option ℕ := none
  filter_len : Option ℤ := none
  precision : Option ℤ := none
  threshold_r : Option ℚ := none
  include_ph : Option Bool := none
  include_pl : Option Bool := none
  lengths : Option (List ℕ) := none
  zone_tolerance : Option ℚ := none
deriving DecidableEq

/-- The state EnhancedSRZoneIndicator.__init__ builds on self. -/
structure IndicatorState where
  methods_to_run : List String
  pivot_lookback : ℕ
  filter_len : ℤ
  precision : ℤ
  threshold_r : ℚ
  include_ph : Bool
  include_pl : Bool
  lengths : List ℕ
  zone_tolerance : ℚ
deriving DecidableEq

/-- The qualifiers the indicator recognises. -/
def available_methods : List String := ["time", "linear", "volume"]

/-- EnhancedSRZoneIndicator.__init__: a non-dict parameters_json becomes
{}; a qualifier outside available_methods (or None) silently selects all
three methods; every numeric parameter is stored unvalidated.  The
construction is total -- no branch raises. -/
def mkEnhancedSRZoneIndicator (parameters_json : Option SRParams)
    (qualifier : Option String) : IndicatorState :=
  let p := parameters_json.getD {}
  { methods_to_run :=
      match qualifier with
      | some q => if q ∈ available_methods then [q] else available_methods
      | none => available_methods
    pivot_lookback := p.pivot_lookback.getD 50
    filter_len := p.filter_len.getD 3
    precision := p.precision.getD 75
    threshold_r := p.threshold_r.getD (1 / 4)
    include_ph := p.include_ph.getD true
    include_pl := p.include_pl.getD true
    lengths := p.lengths.getD [5, 10, 20, 50]
    zone_tolerance := p.zone_tolerance.getD 15 }

/-- One classification event of _detect_interactions: interaction type,
add_interaction strength, update_zone_strength delta, the recorded bar
timestamp, price (the zone value), zone id, and the clamped
last_confirmed passed to the strength update. -/
structure Event where
  itype : String
  istrength : ℚ
  delta : ℚ
  ts : ℤ
  price : ℚ
  zone_id : ℕ
  lc : ℤ
deriving DecidableEq

/-- The add_interaction / get_zone_by_id / update_zone_strength sequence
every classification branch performs: last_confirmed is the bar
timestamp, moved up to the stored zone's first_detected when that is
later. -/
def emitEvent (itype : String) (istrength delta : ℚ) (bar : Bar) (zv : ℚ)
    (zid : ℕ) (db : DB) (acc : List Event) : List Event × DB :=
  let lc := match get_zone_by_id zid db with
    | some zi =>
      if bar.timestamp < zi.first_detected then zi.first_detected else bar.timestamp
    | none => bar.timestamp
  (acc ++ [⟨itype, istrength, delta, bar.timestamp, zv, zid, lc⟩],
    (update_zone_strength zid delta lc db).2)

/-- The crossover block of the per-bar per-zone loop (guarded by
prev_idx >= 0, i.e. idx >= 1; up and down are elif-exclusive). -/
def crossoverStep (bars : List Bar) (idx : ℕ) (zone : Zone) (db : DB) :
    List Event × DB :=
  if 1 ≤ idx then
    if (bars.getD (idx - 1) dBar).close_price < zone.value ∧
        zone.value < (bars.getD idx dBar).close_price then
      emitEvent "crossover_up" 10 (-5) (bars.getD idx dBar) zone.value zone.zone_id db []
    else if zone.value < (bars.getD (idx - 1) dBar).close_price ∧
        (bars.getD idx dBar).close_price < zone.value then
      emitEvent "crossover_down" 10 (-5) (bars.getD idx dBar) zone.value zone.zone_id db []
    else ([], db)
  else ([], db)

/-- The touch block: high or low within 0.1 percent of the zone value. -/
def touchStep (bars : List Bar) (idx : ℕ) (zone : Zone) (s : List Event × DB) :
    List Event × DB :=
  if |(bars.getD idx dBar).high - zone.value| ≤ zone.value * (1 / 1000) ∨
      |(bars.getD idx dBar).low - zone.value| ≤ zone.value * (1 / 1000) then
    emitEvent "touch" 5 2 (bars.getD idx dBar) zone.value zone.zone_id s.2 s.1
  else s

/-- The bounce block (guarded by idx >= 2; up and down elif-exclusive):
a two-bar reversal whose inflection bar's low (resp. high) is within
touch range of the zone. -/
def bounceStep (bars : List Bar) (idx : ℕ) (zone : Zone) (s : List Event × DB) :
    List Event × DB :=
  if 2 ≤ idx then
    if (bars.getD (idx - 1) dBar).close_price < (bars.getD (idx - 2) dBar).close_price ∧
        (bars.getD (idx - 1) dBar).close_price < (bars.getD idx dBar).close_price ∧
        |(bars.getD (idx - 1) dBar).low - zone.value| ≤ zone.value * (1 / 1000) then
      emitEvent "bounce_up" 15 10 (bars.getD idx dBar) zone.value zone.zone_id s.2 s.1
    else if (bars.getD (idx - 2) dBar).close_price < (bars.getD (idx - 1) dBar).close_price ∧
        (bars.getD idx dBar).close_price < (bars.getD (idx - 1) dBar).close_price ∧
        |(bars.getD (idx - 1) dBar).high - zone.value| ≤ zone.value * (1 / 1000) then
      emitEvent "bounce_down" 15 10 (bars.getD idx dBar) zone.value zone.zone_id s.2 s.1
    else s
  else s

/-- The whole per-bar, per-zone body of _detect_interactions: crossover
checks, then the touch check, then the bounce checks, each threading the
mutated store. -/
def processBarZone (bars : List Bar) (idx : ℕ) (zone : Zone) (db : DB) :
    List Event × DB :=
  bounceStep bars idx zone (touchStep bars idx zone (crossoverStep bars idx zone db))

/-- The zone row of dbOneZone as a standalone value. -/
def demoZone : Zone := ⟨0, 100, "time", "1d", 5, 10, 10, none, true⟩

/-- Two bars: the second one touches value 100 from below with its high
100.05 (within 0.1 percent) while closing at 99.5 (no crossover). -/
def demoBarsC9 : List Bar :=
  [⟨0, 99, 98, 99, none⟩, ⟨60, 2001 / 20, 99, 199 / 2, none⟩]

/-- The operations of the ZoneStore boundary, as logged by the pipeline:
upserts, pivot inserts, interaction inserts, strength adjustments,
invalidations and queries. -/
inductive StoreOp
  | createZoneOp (value : ℚ) (qualifier timeframe : String) (strength : ℚ) (fd lc : ℤ)
  | addPivotOp (zone_id : ℕ) (pivot_value : ℚ) (pivot_ts : ℤ) (pivot_type : String)
      (weight : ℚ) (timeframe : String)
  | addInteractionOp (zone_id : ℕ) (bar_ts : ℤ) (timeframe itype : String)
      (istrength : ℚ) (ts : ℤ) (price : ℚ)
  | updateStrengthOp (zone_id : ℕ) (delta : ℚ) (lc : ℤ)
  | invalidateOp (zone_id : ℕ) (at_ts : ℤ)
  | queryActiveZonesOp (timeframe : String) (qualifier : Option String) (date : Option ℤ)
  | queryZoneByIdOp (zone_id : ℕ)
deriving DecidableEq

/-- The three store calls one classification branch makes (the bar_id
string is identified with the bar timestamp it is built from). -/
def eventOps (tf : String) (e : Event) : List StoreOp :=
  [.addInteractionOp e.zone_id e.ts tf e.itype e.istrength e.ts e.price,
    .queryZoneByIdOp e.zone_id, .updateStrengthOp e.zone_id e.delta e.lc]

/-- EnhancedSRZoneIndicator._detect_interactions: fetch the active zones
once (get_active_zones, date defaulting to now), return early when there
are none, else replay every bar against every zone in order. -/
def detect_interactions (bars : List Bar) (method tf : String) (now : ℤ)
    (db : DB) : DB × List StoreOp :=
  let active := get_active_zones tf (some method) now db
  let qOp : List StoreOp := [.queryActiveZonesOp tf (some method) none]
  if active.length = 0 then (db, qOp)
  else
    (List.range bars.length).foldl (fun acc idx =>
      active.foldl (fun acc2 zone =>
        let r := processBarZone bars idx zone acc2.1
        (r.2, acc2.2 ++ r.1.flatMap (eventOps tf))) acc) (db, qOp)

/-- A row of calculate's output frame (the constant parameters_json echo
column is dropped). -/
structure OutRec where
  timestamp_start : ℤ
  timestamp_end : Option ℤ
  value : ℚ
  aux_value : ℤ
  qualifier : String
deriving DecidableEq

/-- EnhancedSRZoneIndicator._determine_timeframe: bucket the gap between
the first two bars (timestamps in seconds, converted to minutes). -/
def determine_timeframe (bars : List Bar) : String :=
  if bars.length < 2 then "1d"
  else
    let d : ℚ := ((((bars.getD 1 dBar).timestamp - (bars.getD 0 dBar).timestamp : ℤ)) : ℚ) / 60
    if d < 2 then "1m"
    else if d < 5 then "3m"
    else if d < 30 then "15m"
    else if d < 120 then "1h"
    else "1d"

/-- EnhancedSRZoneIndicator._build_histogram: range padded by 5 percent on
each side, np.linspace edges, np.searchsorted (side left) minus one for
the bin index, in-range weights accumulated, midpoints as centers. -/
def build_histogram (precision : ℤ) (levels weights : List ℚ) : List ℚ × List ℚ :=
  if levels = [] then ([], [])
  else
    let mn := listMin levels
    let mx := listMax levels
    let buffer := (mx - mn) * (1 / 20)
    let mn2 := mn - buffer
    let mx2 := mx + buffer
    let p := precision.toNat
    let edges := (List.range (p + 1)).map fun k => mn2 + (mx2 - mn2) * (k : ℚ) / (p : ℚ)
    let hist0 := List.replicate p (0 : ℚ)
    let hist := (levels.zip weights).foldl (fun h lw =>
      let idx : ℤ := (edges.countP (fun e => decide (e < lw.1)) : ℤ) - 1
      if 0 ≤ idx ∧ idx < (h.length : ℤ) then
        h.set idx.toNat (h.getD idx.toNat 0 + lw.2)
      else h) hist0
    let centers := (List.range p).map fun k => (edges.getD k 0 + edges.getD (k + 1) 0) / 2
    (centers, hist)

/-- np.convolve(hist, np.ones(fl)/fl, mode="same"): centred moving
average; output i sums hist over the fl-wide window ending at
i + (fl - 1) / 2, clipped to the array, divided by fl. -/
def convolve_same (hist : List ℚ) (fl : ℕ) : List ℚ :=
  (List.range hist.length).map fun i =>
    (((List.range fl).map fun t =>
      if t ≤ i + (fl - 1) / 2 ∧ i + (fl - 1) / 2 - t < hist.length then
        hist.getD (i + (fl - 1) / 2 - t) 0
      else 0).sum) / (fl : ℚ)

/-- The per-method body of calculate: detect pivots, build the histogram,
smooth it with the moving average, detect peaks, create or update a zone
per peak (first_detected = earliest contributing pivot, last_confirmed =
last bar, clamped) and insert the contributing pivots, replay
interactions, then append the active zones of this method to the result
records.  none propagates a _detect_peaks exception. -/
def processMethod (st : IndicatorState) (sincFn : ℚ → ℚ → ℚ) (now : ℤ)
    (bars : List Bar) (tf : String) (ts_start ts_end : ℤ) (method : String)
    (acc : List OutRec × DB × List StoreOp) :
    Option (List OutRec × DB × List StoreOp) :=
  let pivs := detect_pivots st.lengths st.include_ph st.include_pl
    st.pivot_lookback method bars
  let ch := build_histogram st.precision (pivs.map Piv.level) (pivs.map Piv.weight)
  let filt := convolve_same ch.2 st.filter_len.toNat
  match detect_peaks sincFn st.filter_len st.zone_tolerance ch.1 filt st.threshold_r with
  | none => none
  | some peaks =>
    let zstate := peaks.foldl (fun zacc ls =>
      let contributing := pivs.filter fun p => |p.level - ls.1| ≤ st.zone_tolerance
      let fd := match contributing.map Piv.ts with
        | [] => ts_start
        | l => listMinInt l
      let lc := if ts_end < fd then fd else ts_end
      let r := create_zone ls.1 method tf ((pyInt ls.2 : ℤ) : ℚ) fd lc zacc.1
      (r.2, zacc.2 ++
        [StoreOp.createZoneOp ls.1 method tf ((pyInt ls.2 : ℤ) : ℚ) fd lc] ++
        contributing.map fun p =>
          StoreOp.addPivotOp r.1 p.level p.ts p.ptype p.weight tf))
      (acc.2.1, ([] : List StoreOp))
    let ir := detect_interactions bars method tf now zstate.1
    let zones := get_active_zones tf (some method) ts_end ir.1
    let recs := zones.map fun z =>
      OutRec.mk ts_start none z.value (pyInt z.strength) z.qualifier
    some (acc.1 ++ recs, ir.1,
      acc.2.2 ++ zstate.2 ++ ir.2 ++
        [StoreOp.queryActiveZonesOp tf (some method) (some ts_end)])

/-- EnhancedSRZoneIndicator.calculate: an empty bar frame returns the
empty record frame before any repository call; otherwise each selected
method runs the full pipeline against the threaded store.  The result is
(records, final store, log of every ZoneStore operation performed); none
propagates a pipeline exception. -/
def calculate (st : IndicatorState) (sincFn : ℚ → ℚ → ℚ) (now : ℤ) (db : DB)
    (bars : List Bar) : Option (List OutRec × DB × List StoreOp) :=
  if bars = [] then some ([], db, [])
  else
    let ts_start := (bars.headD dBar).timestamp
    let ts_end := (bars.getLastD dBar).timestamp
    let tf := determine_timeframe bars
    st.methods_to_run.foldl (fun macc method =>
      match macc with
      | none => none
      | some acc => processMethod st sincFn now bars tf ts_start ts_end method acc)
      (some (([] : List OutRec), db, ([] : List StoreOp)))

/-- C6 counterexample.  The claim asserts non-negativity of the filter
output for every input array and every filter length; but for length 0 the
filter is (per its own guard, and per the claim's second half) the
identity, so the negative input value -1 reappears in the output. -/
theorem sinc_filter_length_zero_negative :
    sinc_filter sinc [(-1 : ℝ)] 0 = [-1] ∧ ((-1 : ℝ) < 0) := by
  constructor
  · rw [sinc_filter, if_pos (Or.inl le_rfl)]
  · norm_num

/-- C6 (amended): for every strictly positive filter length the smoothed
histogram contains no negative values, whatever the sign pattern of the
input (every entry is max(.., 0)); and for length <= 0 or an empty input
the filter is the identity.  Stated for the program's real sinc kernel. -/
theorem sinc_filter_nonneg_and_identity :
    (∀ (source : List ℝ) (length : ℤ), 1 ≤ length →
      ∀ x ∈ sinc_filter sinc source length, 0 ≤ x) ∧
    (∀ (source : List ℝ) (length : ℤ), length ≤ 0 ∨ source = [] →
      sinc_filter sinc source length = source) := by
  constructor
  · intro source length h x hx
    by_cases hs : source.length = 0
    · rw [sinc_filter, if_pos (Or.inr hs)] at hx
      rw [List.length_eq_zero] at hs
      subst hs
      simp at hx
    · rw [sinc_filter, if_neg (by push_neg; exact ⟨by omega, hs⟩)] at hx
      obtain ⟨i, _, rfl⟩ := List.mem_map.mp hx
      exact le_max_right _ _
  · intro source length h
    rcases h with h | h
    · rw [sinc_filter, if_pos (Or.inl h)]
    · subst h
      simp [sinc_filter]

/-- C10 counterexample.  The constant strictly positive histogram [1, 1, 1]
is nonempty, non-negative and has a positive entry, and _detect_peaks
supplies real_minimum = firstPositive = 1; the scaling divisor
max(source) - real_minimum is then 0 and _peak_detection raises instead
of returning a list. -/
theorem peak_detection_constant_positive_crash :
    ([(1 : ℚ), 1, 1] ≠ []) ∧ (∀ x ∈ [(1 : ℚ), 1, 1], 0 ≤ x) ∧
    firstPositive [(1 : ℚ), 1, 1] = 1 ∧
    peak_detection [1, 1, 1] 30 (firstPositive [1, 1, 1]) true = none := by
  refine ⟨by simp, by norm_num, ?_, ?_⟩
  · norm_num [firstPositive, List.find?]
  · norm_num [firstPositive, List.find?, peak_detection, listMax]

/-- C10 (amended): _peak_detection returns normally unless it is enabled,
the array is nonempty and max(source) equals real_minimum, in which case
the zero scaling divisor makes int(nan) raise; in particular a constant
strictly-positive smoothed histogram (whose first positive value is its
maximum) is not handled. -/
theorem peak_detection_none_iff :
    ∀ (source : List ℚ) (scale : ℤ) (real_minimum : ℚ) (enable : Bool),
      peak_detection source scale real_minimum enable = none ↔
        (enable = true ∧ source ≠ [] ∧ listMax source = real_minimum) := by
  intro source scale rm enable
  rw [peak_detection]
  by_cases h1 : enable = false ∨ source.length = 0
  · rw [if_pos h1]
    refine iff_of_false (by simp) ?_
    rintro ⟨he, hs, -⟩
    rcases h1 with h1 | h1
    · rw [he] at h1
      exact Bool.noConfusion h1
    · exact hs (List.length_eq_zero.mp h1)
  · rw [if_neg h1]
    push_neg at h1
    obtain ⟨he, hs⟩ := h1
    by_cases h2 : listMax source - rm = 0
    · simp only [if_pos h2]
      refine iff_of_true (by simp) ⟨?_, ?_, sub_eq_zero.mp h2⟩
      · cases enable
        · exact absurd rfl he
        · rfl
      · intro h
        apply hs
        rw [h]
        rfl
    · simp only [if_neg h2]
      refine iff_of_false (by simp) ?_
      rintro ⟨-, -, h3⟩
      exact h2 (sub_eq_zero.mpr h3)

/-- Helper: the outer _peak_detection scan on a three-bin histogram whose
scaled centers are 1, 30, 1 records exactly the middle index. -/
theorem pdOuter_rise_fall (c : ℕ → ℤ) (h0 : c 0 = 1) (h1 : c 1 = 30) (h2 : c 2 = 1) :
    pdOuter c 3 4 0 = [1] := by
  simp [pdOuter, pdInner, h0, h1, h2]

set_option maxHeartbeats 1600000 in
/-- C1: on the nonempty histogram [1, 2, 1] over bin centers [100, 101,
102] (filter length 0, default threshold 1/4, zone tolerance 15, any sinc
kernel) _detect_peaks discards the genuinely detected peak at bin center
101 and returns exactly the seven hard-coded TradingView levels with
synthetic strengths -- none of which is a histogram bin center (or a
fallback extreme bin), contradicting the claim. -/
theorem detect_peaks_forces_hardcoded_levels :
    ∀ sincFn : ℚ → ℚ → ℚ,
      detect_peaks sincFn 0 15 [100, 101, 102] [1, 2, 1] (1 / 4) =
        some [(6132, 9 / 5), (4939, 8 / 5), (4558, 8 / 5), (4095, 8 / 5),
          (5726, 6 / 5), (5431, 6 / 5), (5178, 6 / 5)] ∧
      ∀ p ∈ [((6132 : ℚ), (9 / 5 : ℚ)), (4939, 8 / 5), (4558, 8 / 5), (4095, 8 / 5),
          (5726, 6 / 5), (5431, 6 / 5), (5178, 6 / 5)],
        p.1 ∉ ([100, 101, 102] : List ℚ) := by
  intro f
  have hfil : sinc_filter f [(1 : ℚ), 2, 1] 0 = [1, 2, 1] := by
    rw [sinc_filter, if_pos (Or.inl le_rfl)]
  have hfp : firstPositive [(1 : ℚ), 2, 1] = 1 := by
    norm_num [firstPositive, List.find?]
  have hmax : listMax [(1 : ℚ), 2, 1] = 2 := by
    norm_num [listMax, max_def]
  have hpd : peak_detection [(1 : ℚ), 2, 1] 30 1 true = some [1] := by
    rw [peak_detection, if_neg (by norm_num)]
    simp only [hmax]
    rw [if_neg (by norm_num)]
    refine congrArg some (pdOuter_rise_fall _ ?_ ?_ ?_) <;>
      norm_num [pyInt]
  constructor
  · rw [detect_peaks]
    norm_num [hfil, hfp, hpd, hmax, peakAt, pyInt, target_zones,
      sortByStrengthDesc, List.insertionSort, List.orderedInsert, max_def]
    exact fun h => Option.noConfusion h
  · intro p hp
    fin_cases hp <;> norm_num

/-- Helper: the reference detect_pivot_high marks bar i (with symmetric
window l) iff it is interior and strictly above every bar of the
window -- exactly the claimed characterisation. -/
theorem detect_pivot_high_iff (series : List ℚ) (l i : ℕ) (hi : i < series.length) :
    (detect_pivot_high series l l).getD i false = true ↔
      (l ≤ i ∧ i + l < series.length ∧
        ∀ j, 1 ≤ j → j ≤ l →
          series.getD (i - j) 0 < series.getD i 0 ∧
          series.getD (i + j) 0 < series.getD i 0) := by
  rw [detect_pivot_high]
  by_cases hshort : series.length < l + l + 1
  · rw [if_pos hshort]
    rw [List.getD_eq_getElem?_getD, List.getElem?_replicate, if_pos hi]
    simp only [Option.getD_some]
    constructor
    · intro h
      exact absurd h (by decide)
    · rintro ⟨h1, h2, -⟩
      omega
  · rw [if_neg hshort]
    push_neg at hshort
    rw [List.getD_eq_getElem?_getD]
    by_cases h1 : i < l
    · rw [List.getElem?_append, if_pos (by
        simp only [List.length_append, List.length_replicate, List.length_map,
          List.length_range']
        omega)]
      rw [List.getElem?_append, if_pos (by simp only [List.length_replicate]; omega)]
      rw [List.getElem?_replicate, if_pos h1]
      simp only [Option.getD_some]
      constructor
      · intro h
        exact absurd h (by decide)
      · rintro ⟨h2, -, -⟩
        omega
    · push_neg at h1
      by_cases h2 : i + l < series.length
      · rw [List.getElem?_append, if_pos (by
          simp only [List.length_append, List.length_replicate, List.length_map,
            List.length_range']
          omega)]
        rw [List.getElem?_append, if_neg (by simp only [List.length_replicate]; omega)]
        rw [List.length_replicate, List.getElem?_map,
          List.getElem?_range' l 1 (by omega)]
        simp only [one_mul, Option.map_some', Option.getD_some]
        have hidx : l + (i - l) = i := by omega
        rw [hidx]
        rw [Bool.and_eq_true, List.all_eq_true, List.all_eq_true]
        constructor
        · rintro ⟨ha, hb⟩
          refine ⟨h1, h2, fun j hj1 hjl => ?_⟩
          have hja := ha (j - 1) (by rw [List.mem_range]; omega)
          have hjb := hb (j - 1) (by rw [List.mem_range]; omega)
          rw [decide_eq_true_eq] at hja hjb
          have hj : j - 1 + 1 = j := by omega
          rw [hj] at hja hjb
          exact ⟨hja, hjb⟩
        · rintro ⟨-, -, hall⟩
          constructor
          · intro j0 hj0
            rw [List.mem_range] at hj0
            rw [decide_eq_true_eq]
            exact (hall (j0 + 1) (by omega) (by omega)).1
          · intro j0 hj0
            rw [List.mem_range] at hj0
            rw [decide_eq_true_eq]
            exact (hall (j0 + 1) (by omega) (by omega)).2
      · push_neg at h2
        rw [List.getElem?_append, if_neg (by
          simp only [List.length_append, List.length_replicate, List.length_map,
            List.length_range']
          omega)]
        rw [List.getElem?_replicate, if_pos (by
          simp only [List.length_append, List.length_replicate, List.length_map,
            List.length_range']
          omega)]
        simp only [Option.getD_some]
        constructor
        · intro h
          exact absurd h (by decide)
        · rintro ⟨-, h3, -⟩
          omega

/-- Helper: the symmetric characterisation of detect_pivot_low. -/
theorem detect_pivot_low_iff (series : List ℚ) (l i : ℕ) (hi : i < series.length) :
    (detect_pivot_low series l l).getD i false = true ↔
      (l ≤ i ∧ i + l < series.length ∧
        ∀ j, 1 ≤ j → j ≤ l →
          series.getD i 0 < series.getD (i - j) 0 ∧
          series.getD i 0 < series.getD (i + j) 0) := by
  rw [detect_pivot_low]
  by_cases hshort : series.length < l + l + 1
  · rw [if_pos hshort]
    rw [List.getD_eq_getElem?_getD, List.getElem?_replicate, if_pos hi]
    simp only [Option.getD_some]
    constructor
    · intro h
      exact absurd h (by decide)
    · rintro ⟨h1, h2, -⟩
      omega
  · rw [if_neg hshort]
    push_neg at hshort
    rw [List.getD_eq_getElem?_getD]
    by_cases h1 : i < l
    · rw [List.getElem?_append, if_pos (by
        simp only [List.length_append, List.length_replicate, List.length_map,
          List.length_range']
        omega)]
      rw [List.getElem?_append, if_pos (by simp only [List.length_replicate]; omega)]
      rw [List.getElem?_replicate, if_pos h1]
      simp only [Option.getD_some]
      constructor
      · intro h
        exact absurd h (by decide)
      · rintro ⟨h2, -, -⟩
        omega
    · push_neg at h1
      by_cases h2 : i + l < series.length
      · rw [List.getElem?_append, if_pos (by
          simp only [List.length_append, List.length_replicate, List.length_map,
            List.length_range']
          omega)]
        rw [List.getElem?_append, if_neg (by simp only [List.length_replicate]; omega)]
        rw [List.length_replicate, List.getElem?_map,
          List.getElem?_range' l 1 (by omega)]
        simp only [one_mul, Option.map_some', Option.getD_some]
        have hidx : l + (i - l) = i := by omega
        rw [hidx]
        rw [Bool.and_eq_true, List.all_eq_true, List.all_eq_true]
        constructor
        · rintro ⟨ha, hb⟩
          refine ⟨h1, h2, fun j hj1 hjl => ?_⟩
          have hja := ha (j - 1) (by rw [List.mem_range]; omega)
          have hjb := hb (j - 1) (by rw [List.mem_range]; omega)
          rw [decide_eq_true_eq] at hja hjb
          have hj : j - 1 + 1 = j := by omega
          rw [hj] at hja hjb
          exact ⟨hja, hjb⟩
        · rintro ⟨-, -, hall⟩
          constructor
          · intro j0 hj0
            rw [List.mem_range] at hj0
            rw [decide_eq_true_eq]
            exact (hall (j0 + 1) (by omega) (by omega)).1
          · intro j0 hj0
            rw [List.mem_range] at hj0
            rw [decide_eq_true_eq]
            exact (hall (j0 + 1) (by omega) (by omega)).2
      · push_neg at h2
        rw [List.getElem?_append, if_neg (by
          simp only [List.length_append, List.length_replicate, List.length_map,
            List.length_range']
          omega)]
        rw [List.getElem?_replicate, if_pos (by
          simp only [List.length_append, List.length_replicate, List.length_map,
            List.length_range']
          omega)]
        simp only [Option.getD_some]
        constructor
        · intro h
          exact absurd h (by decide)
        · rintro ⟨-, h3, -⟩
          omega

/-- C2: on highs [1, 9, 5, 1, 1] with window length 2, the production
_detect_pivots reports bar 2 (high 5) as a pivot high -- it compares only
the bars exactly 2 positions away (highs 1 and 1) -- although bar 1 in the
window has the strictly greater high 9, so the claimed
strictly-greater-than-every-window-bar characterisation fails; the
repository's reference implementation detect_pivot_high, which does check
the whole window, reports no pivot at all on the same input.  The final
two conjuncts prove that the reference detect_pivot_high/detect_pivot_low
satisfy the claimed characterisation in full generality: a bar is marked
iff it is interior and strictly dominates every bar of the symmetric
window. -/
theorem detect_pivots_endpoint_only_bug :
    detect_pivots [2] true false 50 "linear" demoBarsC2 = [⟨2, 5, 1, "high"⟩] ∧
    ¬ ((demoBarsC2.getD 1 dBar).high < (demoBarsC2.getD 2 dBar).high) ∧
    detect_pivot_high (demoBarsC2.map Bar.high) 2 2 =
      [false, false, false, false, false] ∧
    (∀ (series : List ℚ) (l i : ℕ), i < series.length →
      ((detect_pivot_high series l l).getD i false = true ↔
        (l ≤ i ∧ i + l < series.length ∧
          ∀ j, 1 ≤ j → j ≤ l →
            series.getD (i - j) 0 < series.getD i 0 ∧
            series.getD (i + j) 0 < series.getD i 0))) ∧
    (∀ (series : List ℚ) (l i : ℕ), i < series.length →
      ((detect_pivot_low series l l).getD i false = true ↔
        (l ≤ i ∧ i + l < series.length ∧
          ∀ j, 1 ≤ j → j ≤ l →
            series.getD i 0 < series.getD (i - j) 0 ∧
            series.getD i 0 < series.getD (i + j) 0))) := by
  refine ⟨by decide, by norm_num [demoBarsC2], by decide,
    detect_pivot_high_iff, detect_pivot_low_iff⟩

/-- C3 counterexample.  Strength is a signed scalar (crossovers subtract
from it), and create_zone accepts any strength.  Starting from an empty
table: insert value 100 with strength -1, then merge value 110 with
strength 2 (within tolerance).  The summed strength 1 is positive, so the
weighted formula gives (100 * -1 + 110 * 2) / 1 = 120 -- outside the
interval [100, 110], so the merged value does not lie between the two
input values. -/
theorem create_zone_negative_strength_extrapolates :
    ((create_zone 110 "time" "1d" 2 0 0
      ((create_zone 100 "time" "1d" (-1) 0 0 emptyDB).2)).2).zones =
      [⟨0, 120, "time", "1d", 1, 0, 0, none, true⟩] ∧
    ¬ ((120 : ℚ) ≤ max 100 110) := by
  constructor
  · norm_num [create_zone, zoneMatches, emptyDB, List.find?]
  · norm_num [max_def]

/-- C3 (amended): for two successive create_zone calls with the same
qualifier and timeframe, values strictly within the 15-point tolerance and
non-negative strengths, against a store with no other nearby active zone
of that qualifier/timeframe and no id clash, the result is one single new
zone whose strength is the sum of the two input strengths and whose value
lies between the two input values: the strength-weighted average when the
strength sum is positive, the second (candidate) value when the sum is
zero.  (For negative strengths the code both extrapolates and falls back
on sums that are negative rather than zero, see the counterexample.) -/
theorem create_zone_merge_weighted :
    ∀ (db : DB) (q tf : String) (v1 v2 s1 s2 : ℚ) (fd1 lc1 fd2 lc2 : ℤ),
      (∀ z ∈ db.zones, z.is_active = true → z.qualifier = q → z.timeframe = tf →
        15 ≤ |z.value - v1| ∧ 15 ≤ |z.value - v2|) →
      (∀ z ∈ db.zones, z.zone_id ≠ db.next_id) →
      |v1 - v2| < 15 → 0 ≤ s1 → 0 ≤ s2 →
      ((create_zone v2 q tf s2 fd2 lc2 ((create_zone v1 q tf s1 fd1 lc1 db).2)).2).zones =
        db.zones ++ [⟨db.next_id,
          if 0 < s1 + s2 then (v1 * s1 + v2 * s2) / (s1 + s2) else v2,
          q, tf, s1 + s2, fd1, lc2, none, true⟩] ∧
      min v1 v2 ≤ (if 0 < s1 + s2 then (v1 * s1 + v2 * s2) / (s1 + s2) else v2) ∧
      (if 0 < s1 + s2 then (v1 * s1 + v2 * s2) / (s1 + s2) else v2) ≤ max v1 v2 := by
  intro db q tf v1 v2 s1 s2 fd1 lc1 fd2 lc2 hfar hid habs hs1 hs2
  have hfind1 : db.zones.find? (zoneMatches q tf v1) = none := by
    rw [List.find?_eq_none]
    intro z hz hm
    simp only [zoneMatches, Bool.and_eq_true, decide_eq_true_eq] at hm
    obtain ⟨⟨⟨hq, htf⟩, hv⟩, hact⟩ := hm
    have := (hfar z hz hact hq htf).1
    linarith
  have hfind2 : db.zones.find? (zoneMatches q tf v2) = none := by
    rw [List.find?_eq_none]
    intro z hz hm
    simp only [zoneMatches, Bool.and_eq_true, decide_eq_true_eq] at hm
    obtain ⟨⟨⟨hq, htf⟩, hv⟩, hact⟩ := hm
    have := (hfar z hz hact hq htf).2
    linarith
  have hz1 : zoneMatches q tf v2
      (⟨db.next_id, v1, q, tf, s1, fd1, lc1, none, true⟩ : Zone) = true := by
    simp [zoneMatches, habs]
  have hstep1 : (create_zone v1 q tf s1 fd1 lc1 db).2 =
      { zones := db.zones ++
          [(⟨db.next_id, v1, q, tf, s1, fd1, lc1, none, true⟩ : Zone)],
        next_id := db.next_id + 1 } := by
    rw [create_zone, hfind1]
  have hfind3 : (db.zones ++
      [(⟨db.next_id, v1, q, tf, s1, fd1, lc1, none, true⟩ : Zone)]).find?
        (zoneMatches q tf v2) =
      some (⟨db.next_id, v1, q, tf, s1, fd1, lc1, none, true⟩ : Zone) := by
    rw [List.find?_append, hfind2]
    simp [List.find?, hz1]
  have hmap : (db.zones ++
      [(⟨db.next_id, v1, q, tf, s1, fd1, lc1, none, true⟩ : Zone)]).map (fun z =>
        if z.zone_id = db.next_id then
          { z with
            value := if 0 < s1 + s2 then (v1 * s1 + v2 * s2) / (s1 + s2) else v2,
            strength := s1 + s2, last_confirmed := lc2 }
        else z) =
      db.zones ++ [(⟨db.next_id,
        if 0 < s1 + s2 then (v1 * s1 + v2 * s2) / (s1 + s2) else v2,
        q, tf, s1 + s2, fd1, lc2, none, true⟩ : Zone)] := by
    rw [List.map_append]
    congr 1
    · conv_rhs => rw [← List.map_id db.zones]
      exact List.map_congr_left fun z hz => by rw [if_neg (hid z hz)]; rfl
    · simp
  refine ⟨?_, ?_, ?_⟩
  · rw [hstep1, create_zone]
    simp only [hfind3]
    simpa using hmap
  · by_cases hpos : 0 < s1 + s2
    · rw [if_pos hpos, le_div_iff₀ hpos]
      calc min v1 v2 * (s1 + s2) = min v1 v2 * s1 + min v1 v2 * s2 := by ring
        _ ≤ v1 * s1 + v2 * s2 :=
          add_le_add (mul_le_mul_of_nonneg_right (min_le_left _ _) hs1)
            (mul_le_mul_of_nonneg_right (min_le_right _ _) hs2)
    · rw [if_neg hpos]
      exact min_le_right _ _
  · by_cases hpos : 0 < s1 + s2
    · rw [if_pos hpos, div_le_iff₀ hpos]
      calc v1 * s1 + v2 * s2 ≤ max v1 v2 * s1 + max v1 v2 * s2 :=
          add_le_add (mul_le_mul_of_nonneg_right (le_max_left _ _) hs1)
            (mul_le_mul_of_nonneg_right (le_max_right _ _) hs2)
        _ = max v1 v2 * (s1 + s2) := by ring
    · rw [if_neg hpos]
      exact le_max_right _ _

/-- C3 witness: the amended merge theorem at a concrete input (values 100
and 110, strengths 1 and 1, empty store): one zone with value 105 and
strength 2. -/
theorem create_zone_merge_weighted_witness :
    ((create_zone 110 "time" "1d" 1 0 0
      ((create_zone 100 "time" "1d" 1 0 0 emptyDB).2)).2).zones =
      emptyDB.zones ++ [⟨emptyDB.next_id,
        if 0 < (1 : ℚ) + 1 then (100 * 1 + 110 * 1) / (1 + 1) else 110,
        "time", "1d", 1 + 1, 0, 0, none, true⟩] ∧
    min (100 : ℚ) 110 ≤
      (if 0 < (1 : ℚ) + 1 then (100 * 1 + 110 * 1) / (1 + 1) else 110) ∧
    (if 0 < (1 : ℚ) + 1 then (100 * 1 + 110 * 1) / (1 + 1) else 110) ≤
      max (100 : ℚ) 110 :=
  create_zone_merge_weighted emptyDB "time" "1d" 100 110 1 1 0 0 0 0
    (by intro z hz; simp [emptyDB] at hz) (by intro z hz; simp [emptyDB] at hz)
    (by norm_num) (by norm_num) (by norm_num)

/-- C4 counterexample.  update_zone_strength writes the caller-supplied
last_confirmed unconditionally: on a zone with first_detected = 10 a call
with last_confirmed = 5 leaves the row with last_confirmed 5 <
first_detected 10, breaking the lifecycle invariant. -/
theorem update_zone_strength_regresses_last_confirmed :
    (∀ z ∈ dbOneZone.zones, ZoneInv z) ∧
    ((update_zone_strength 0 1 5 dbOneZone).2).zones =
      [⟨0, 100, "time", "1d", 6, 10, 5, none, true⟩] ∧
    ¬ ZoneInv (⟨0, 100, "time", "1d", 6, 10, 5, none, true⟩ : Zone) := by
  refine ⟨?_, ?_, ?_⟩
  · intro z hz
    simp only [dbOneZone, List.mem_singleton] at hz
    subst hz
    exact ⟨by simp, by norm_num⟩
  · norm_num [update_zone_strength, dbOneZone]
  · intro h
    have := h.2
    norm_num at this

/-- C4 (amended): create_zone, update_zone_strength and invalidate_zone
all preserve active == (invalidated_at is null); they preserve
last_confirmed >= first_detected only under the precondition that every
caller-supplied last_confirmed is at or after the first_detected of the
rows it can touch (which the enhanced indicator's call sites enforce);
invalidate_zone needs no precondition. -/
theorem zone_ops_preserve_lifecycle :
    ∀ (db : DB) (v : ℚ) (q tf : String) (s delta : ℚ) (fd lc lc2 at2 : ℤ) (id : ℕ),
      (∀ z ∈ db.zones, ZoneInv z) →
      fd ≤ lc →
      (∀ z ∈ db.zones, z.first_detected ≤ lc) →
      (∀ z ∈ db.zones, z.zone_id = id → z.first_detected ≤ lc2) →
      (∀ z ∈ ((create_zone v q tf s fd lc db).2).zones, ZoneInv z) ∧
      (∀ z ∈ ((update_zone_strength id delta lc2 db).2).zones, ZoneInv z) ∧
      (∀ z ∈ ((invalidate_zone id at2 db).2).zones, ZoneInv z) := by
  intro db v q tf s delta fd lc lc2 at2 id hinv hfdlc hlc hlc2
  refine ⟨?_, ?_, ?_⟩
  · rw [create_zone]
    cases hfind : db.zones.find? (zoneMatches q tf v) with
    | none =>
      intro z hz
      simp only [List.mem_append, List.mem_singleton] at hz
      rcases hz with hz | hz
      · exact hinv z hz
      · subst hz
        exact ⟨by simp, hfdlc⟩
    | some existing =>
      intro z hz
      simp only [List.mem_map] at hz
      obtain ⟨z0, hz0, hz0e⟩ := hz
      by_cases hcase : z0.zone_id = existing.zone_id
      · rw [if_pos hcase] at hz0e
        subst hz0e
        exact ⟨(hinv z0 hz0).1, hlc z0 hz0⟩
      · rw [if_neg hcase] at hz0e
        subst hz0e
        exact hinv z0 hz0
  · intro z hz
    simp only [update_zone_strength, List.mem_map] at hz
    obtain ⟨z0, hz0, hz0e⟩ := hz
    by_cases hcase : z0.zone_id = id
    · rw [if_pos hcase] at hz0e
      subst hz0e
      exact ⟨(hinv z0 hz0).1, hlc2 z0 hz0 hcase⟩
    · rw [if_neg hcase] at hz0e
      subst hz0e
      exact hinv z0 hz0
  · intro z hz
    simp only [invalidate_zone, List.mem_map] at hz
    obtain ⟨z0, hz0, hz0e⟩ := hz
    by_cases hcase : z0.zone_id = id
    · rw [if_pos hcase] at hz0e
      subst hz0e
      exact ⟨by simp, (hinv z0 hz0).2⟩
    · rw [if_neg hcase] at hz0e
      subst hz0e
      exact hinv z0 hz0

/-- C4 witness: the amended preservation theorem at a concrete input (the
one-zone table, timestamps at or after first_detected 10). -/
theorem zone_ops_preserve_lifecycle_witness :
    (∀ z ∈ ((create_zone 104 "time" "1d" 3 10 12 dbOneZone).2).zones, ZoneInv z) ∧
    (∀ z ∈ ((update_zone_strength 0 2 11 dbOneZone).2).zones, ZoneInv z) ∧
    (∀ z ∈ ((invalidate_zone 0 13 dbOneZone).2).zones, ZoneInv z) :=
  zone_ops_preserve_lifecycle dbOneZone 104 "time" "1d" 3 2 10 12 11 13 0
    (fun z hz => by
      simp only [dbOneZone, List.mem_singleton] at hz
      subst hz
      exact ⟨by simp, by norm_num⟩)
    (by norm_num)
    (fun z hz => by
      simp only [dbOneZone, List.mem_singleton] at hz
      subst hz
      norm_num)
    (fun z hz _ => by
      simp only [dbOneZone, List.mem_singleton] at hz
      subst hz
      norm_num)

/-- C5 counterexample.  invalidate_zone overwrites invalidated_at with the
supplied (by default: current) timestamp on every call: invalidating zone
0 at time 5 and then again at time 7 changes the row again (invalidated_at
moves from 5 to 7), so a second invalidation is not effect-free. -/
theorem invalidate_zone_second_call_changes_state :
    (invalidate_zone 0 5 dbOneZone).1 = true ∧
    ((invalidate_zone 0 7 ((invalidate_zone 0 5 dbOneZone).2)).2).zones ≠
      ((invalidate_zone 0 5 dbOneZone).2).zones := by
  constructor
  · decide
  · decide

/-- C5 (amended): invalidate_zone returns False exactly when no row has
the given id; it sets is_active = false and invalidated_at = the supplied
timestamp on every row with the id (a later call with a different
timestamp therefore overwrites invalidated_at, though the zone stays
inactive); and repeating the call with the same timestamp leaves the
store unchanged. -/
theorem invalidate_zone_characterisation :
    ∀ (db : DB) (id : ℕ) (t : ℤ),
      ((invalidate_zone id t db).1 = false ↔ ∀ z ∈ db.zones, z.zone_id ≠ id) ∧
      (∀ z ∈ ((invalidate_zone id t db).2).zones, z.zone_id = id →
        z.is_active = false ∧ z.invalidated_at = some t) ∧
      (invalidate_zone id t ((invalidate_zone id t db).2)).2 =
        (invalidate_zone id t db).2 := by
  intro db id t
  refine ⟨?_, ?_, ?_⟩
  · simp only [invalidate_zone, List.any_eq_false, decide_eq_true_eq]
  · intro z hz hid
    simp only [invalidate_zone, List.mem_map] at hz
    obtain ⟨z0, hz0, hz0e⟩ := hz
    by_cases hcase : z0.zone_id = id
    · rw [if_pos hcase] at hz0e
      subst hz0e
      exact ⟨rfl, rfl⟩
    · rw [if_neg hcase] at hz0e
      subst hz0e
      exact absurd hid hcase
  · simp only [invalidate_zone, List.map_map]
    refine congrArg (fun l => DB.mk l db.next_id) ?_
    refine List.map_congr_left fun z hz => ?_
    by_cases hcase : z.zone_id = id
    · simp only [Function.comp, if_pos hcase]
    · simp only [Function.comp, if_neg hcase]

/-- C7 counterexample.  Constructing with the unsupported qualifier
"bogus" and the non-positive precision -5 raises nothing: the constructor
returns a normal state, silently selects all three methods and stores the
bad precision as-is. -/
theorem init_accepts_bad_qualifier_and_precision :
    mkEnhancedSRZoneIndicator (some { precision := some (-5) }) (some "bogus") =
      ⟨["time", "linear", "volume"], 50, 3, -5, 1 / 4, true, true, [5, 10, 20, 50], 15⟩ ∧
    "bogus" ∉ available_methods ∧ (-5 : ℤ) ≤ 0 := by
  refine ⟨rfl, by decide, by decide⟩

/-- C7 (amended): construction is a total function -- no configuration
error is ever raised; an unsupported qualifier silently selects all
three weighting methods, and precision (valid or not) is stored as
given. -/
theorem init_total_fallback :
    ∀ (params : SRParams) (q : String), q ∉ available_methods →
      (mkEnhancedSRZoneIndicator (some params) (some q)).methods_to_run =
        available_methods ∧
      (mkEnhancedSRZoneIndicator (some params) (some q)).precision =
        params.precision.getD 75 := by
  intro params q hq
  exact ⟨by simp [mkEnhancedSRZoneIndicator, hq], rfl⟩

/-- C7 witness: the amended theorem at the concrete qualifier "bogus". -/
theorem init_total_fallback_witness :
    (mkEnhancedSRZoneIndicator (some {}) (some "bogus")).methods_to_run =
      available_methods ∧
    (mkEnhancedSRZoneIndicator (some {}) (some "bogus")).precision =
      ({} : SRParams).precision.getD 75 :=
  init_total_fallback {} "bogus" (by decide)

/-- Helper: an event of the crossover block is a crossover with delta -5. -/
theorem mem_crossoverStep (bars : List Bar) (idx : ℕ) (zone : Zone) (db : DB)
    (e : Event) (he : e ∈ (crossoverStep bars idx zone db).1) :
    (e.itype = "crossover_up" ∨ e.itype = "crossover_down") ∧ e.delta = -5 := by
  rw [crossoverStep] at he
  split_ifs at he <;> simp [emitEvent] at he <;> subst he <;> simp

/-- Helper: an event of the touch block is inherited or a touch with
istrength 5 and delta 2. -/
theorem mem_touchStep (bars : List Bar) (idx : ℕ) (zone : Zone)
    (s : List Event × DB) (e : Event) (he : e ∈ (touchStep bars idx zone s).1) :
    e ∈ s.1 ∨ (e.itype = "touch" ∧ e.istrength = 5 ∧ e.delta = 2) := by
  rw [touchStep] at he
  split_ifs at he
  · simp only [emitEvent, List.mem_append, List.mem_singleton] at he
    rcases he with he | he
    · exact Or.inl he
    · subst he
      exact Or.inr ⟨rfl, rfl, rfl⟩
  · exact Or.inl he

/-- Helper: an event of the bounce block is inherited or a bounce with
delta 10. -/
theorem mem_bounceStep (bars : List Bar) (idx : ℕ) (zone : Zone)
    (s : List Event × DB) (e : Event) (he : e ∈ (bounceStep bars idx zone s).1) :
    e ∈ s.1 ∨ ((e.itype = "bounce_up" ∨ e.itype = "bounce_down") ∧ e.delta = 10) := by
  rw [bounceStep] at he
  split_ifs at he <;>
    first
    | exact Or.inl he
    | · simp only [emitEvent, List.mem_append, List.mem_singleton] at he
        rcases he with he | he
        · exact Or.inl he
        · subst he
          simp

/-- C9: if a bar's high or low is within 0.1 percent of an active zone's
value and no crossover or bounce condition holds for that (bar, zone)
pair, the replay body emits exactly one interaction, of type touch, and
adjusts exactly that zone's strength by exactly +2; and across all
branches, touch events carry delta +2, crossover events -5, bounce events
+10. -/
theorem touch_adjusts_strength_by_two :
    (∀ (bars : List Bar) (idx : ℕ) (zone : Zone) (db : DB),
      (|(bars.getD idx dBar).high - zone.value| ≤ zone.value * (1 / 1000) ∨
        |(bars.getD idx dBar).low - zone.value| ≤ zone.value * (1 / 1000)) →
      ¬ ((bars.getD (idx - 1) dBar).close_price < zone.value ∧
          zone.value < (bars.getD idx dBar).close_price) →
      ¬ (zone.value < (bars.getD (idx - 1) dBar).close_price ∧
          (bars.getD idx dBar).close_price < zone.value) →
      ¬ ((bars.getD (idx - 1) dBar).close_price < (bars.getD (idx - 2) dBar).close_price ∧
          (bars.getD (idx - 1) dBar).close_price < (bars.getD idx dBar).close_price ∧
          |(bars.getD (idx - 1) dBar).low - zone.value| ≤ zone.value * (1 / 1000)) →
      ¬ ((bars.getD (idx - 2) dBar).close_price < (bars.getD (idx - 1) dBar).close_price ∧
          (bars.getD idx dBar).close_price < (bars.getD (idx - 1) dBar).close_price ∧
          |(bars.getD (idx - 1) dBar).high - zone.value| ≤ zone.value * (1 / 1000)) →
      (processBarZone bars idx zone db).1.map (fun e => (e.itype, e.istrength, e.delta)) =
        [("touch", 5, 2)] ∧
      ((processBarZone bars idx zone db).2).zones.map (fun z => (z.zone_id, z.strength)) =
        db.zones.map (fun z =>
          (z.zone_id, if z.zone_id = zone.zone_id then z.strength + 2 else z.strength))) ∧
    (∀ (bars : List Bar) (idx : ℕ) (zone : Zone) (db : DB) (e : Event),
      e ∈ (processBarZone bars idx zone db).1 →
      (e.itype = "touch" → e.delta = 2) ∧
      ((e.itype = "crossover_up" ∨ e.itype = "crossover_down") → e.delta = -5) ∧
      ((e.itype = "bounce_up" ∨ e.itype = "bounce_down") → e.delta = 10)) := by
  constructor
  · intro bars idx zone db htouch hx1 hx2 hb1 hb2
    have hcross : crossoverStep bars idx zone db = ([], db) := by
      rw [crossoverStep]
      by_cases hidx : 1 ≤ idx
      · rw [if_pos hidx, if_neg hx1, if_neg hx2]
      · rw [if_neg hidx]
    have hbounce : ∀ s : List Event × DB, bounceStep bars idx zone s = s := by
      intro s
      rw [bounceStep]
      by_cases hidx : 2 ≤ idx
      · rw [if_pos hidx, if_neg hb1, if_neg hb2]
      · rw [if_neg hidx]
    rw [processBarZone, hcross, touchStep, if_pos htouch, hbounce]
    constructor
    · simp [emitEvent]
    · have hupd : ∀ (lc : ℤ),
          ((update_zone_strength zone.zone_id 2 lc db).2).zones.map
            (fun z => (z.zone_id, z.strength)) =
          db.zones.map (fun z =>
            (z.zone_id, if z.zone_id = zone.zone_id then z.strength + 2 else z.strength)) := by
        intro lc
        simp only [update_zone_strength, List.map_map]
        refine List.map_congr_left fun z hz => ?_
        by_cases hc : z.zone_id = zone.zone_id
        · simp [Function.comp, hc]
        · simp [Function.comp, hc]
      simpa [emitEvent] using hupd _
  · intro bars idx zone db e he
    rw [processBarZone] at he
    rcases mem_bounceStep bars idx zone _ e he with he2 | hb
    · rcases mem_touchStep bars idx zone _ e he2 with he3 | ht
      · obtain ⟨hct, hcd⟩ := mem_crossoverStep bars idx zone db e he3
        refine ⟨fun h => ?_, fun _ => hcd, fun h => ?_⟩
        · rcases hct with h1 | h1 <;> rw [h] at h1 <;> exact absurd h1 (by decide)
        · rcases h with h | h <;> rcases hct with h1 | h1 <;> rw [h] at h1 <;>
            exact absurd h1 (by decide)
      · obtain ⟨ht1, ht2, ht3⟩ := ht
        refine ⟨fun _ => ht3, fun h => ?_, fun h => ?_⟩
        · rcases h with h | h <;> rw [h] at ht1 <;> exact absurd ht1 (by decide)
        · rcases h with h | h <;> rw [h] at ht1 <;> exact absurd ht1 (by decide)
    · obtain ⟨hbt, hbd⟩ := hb
      refine ⟨fun h => ?_, fun h => ?_, fun _ => hbd⟩
      · rcases hbt with h1 | h1 <;> rw [h] at h1 <;> exact absurd h1 (by decide)
      · rcases h with h | h <;> rcases hbt with h1 | h1 <;> rw [h] at h1 <;>
          exact absurd h1 (by decide)

/-- C9 witness: the touch theorem at the concrete two-bar, one-zone
input: exactly one touch event with strength adjustment +2. -/
theorem touch_adjusts_strength_by_two_witness :
    (processBarZone demoBarsC9 1 demoZone dbOneZone).1.map
      (fun e => (e.itype, e.istrength, e.delta)) = [("touch", 5, 2)] ∧
    ((processBarZone demoBarsC9 1 demoZone dbOneZone).2).zones.map
      (fun z => (z.zone_id, z.strength)) =
      dbOneZone.zones.map (fun z =>
        (z.zone_id, if z.zone_id = demoZone.zone_id then z.strength + 2 else z.strength)) :=
  touch_adjusts_strength_by_two.1 demoBarsC9 1 demoZone dbOneZone
    (by left
        norm_num [demoBarsC9, demoZone, abs_le])
    (by norm_num [demoBarsC9, demoZone])
    (by norm_num [demoBarsC9, demoZone])
    (by norm_num [demoBarsC9, demoZone])
    (by norm_num [demoBarsC9, demoZone])

/-- C8: on an empty bar sequence calculate returns normally with an empty
record frame, an unchanged store, and an empty operation log -- no
upsert, strength adjustment, invalidation, pivot insert, interaction
insert or query is performed. -/
theorem calculate_empty_bars_no_store_ops :
    ∀ (st : IndicatorState) (sincFn : ℚ → ℚ → ℚ) (now : ℤ) (db : DB),
      calculate st sincFn now db [] = some ([], db, []) := by
  intro st f now db
  rfl

